import Mathlib

/-!
# Verification of the botk session/streaming core

Shallow embedding of the session store (`src/session.js`), the error
classifier and stream orchestrator (`src/agent.js`, first variant unless
noted), and the task runner (`registerMessageHandlers` / `processUserMessage`).

Timestamps are modelled as `Int` (milliseconds).  JS `Map` objects are
modelled as lists of entries in insertion order with unique keys.
JS `Array.prototype.sort` (stable since ES2019) is modelled by a stable
insertion sort.  Network calls that may fail are driven by explicit
boolean oracles; calls made by the code are recorded in an action log.
-/

namespace Botk

-- ==================== JS string helpers ====================

/-- JS `a || b` where `a` is a string or `undefined`: `undefined` and `""` are falsy. -/
def jsOrStr (a : Option String) (b : String) : String :=
  match a with
  | none => b
  | some s => if s = "" then b else s

/-- `leadMatch n h` is true when `n` is an initial segment of `h`. -/
def leadMatch : List Char → List Char → Bool
  | [], _ => true
  | _ :: _, [] => false
  | a :: as, b :: bs => a = b && leadMatch as bs

/-- `hasSub n h` is true when `n` occurs contiguously inside `h`. -/
def hasSub (needle : List Char) : List Char → Bool
  | [] => leadMatch needle []
  | c :: cs => leadMatch needle (c :: cs) || hasSub needle cs

/-- JS `hay.includes(needle)`. -/
def strIncludes (hay needle : String) : Bool :=
  hasSub needle.toList hay.toList

/-- JS `s.slice(0, n)` (UTF-16 code units modelled as characters). -/
def jsSliceTo (s : String) (n : Nat) : String := String.mk (s.toList.take n)

/-- JS `s.slice(-n)`: the last `n` characters of `s`. -/
def jsSliceLast (s : String) (n : Nat) : String :=
  String.mk (s.toList.drop (s.toList.length - n))

/-- JS `s.trim()`: strip whitespace from both ends. -/
def jsTrim (s : String) : String :=
  String.mk
    (((s.toList.dropWhile (fun c => c.isWhitespace)).reverse.dropWhile
        (fun c => c.isWhitespace)).reverse)

-- ==================== Configuration (src/config.js) ====================

def TIMEOUT_MS : Nat := 3 * 60 * 1000
def TG_MAX_LEN : Nat := 4000
def SESSION_TTL_MS : Int := 30 * 60 * 1000
def SESSION_MAX : Nat := 20
def STREAM_THROTTLE_MS : Nat := 450
def TYPING_INTERVAL_MS : Nat := 4000

-- ==================== Session store (src/session.js) ====================

/-- One entry of the `sessions` map: `{ session, lastUsed }` under its key. -/
structure SessionEntry (σ : Type) where
  key : String
  session : σ
  lastUsed : Int
deriving Repr, DecidableEq

/-- The `sessions` `Map`, as its entry list in insertion order. -/
abbrev SessionStore (σ : Type) := List (SessionEntry σ)

/-- Well-formedness of the JS `Map`: keys are unique. -/
def StoreWF (s : SessionStore σ) : Prop := (s.map (·.key)).Nodup

/-- JS `Map.set`: replace in place when the key exists (keeping its position),
otherwise append a fresh entry at the end. -/
def storeSet (s : SessionStore σ) (k : String) (v : σ) (now : Int) : SessionStore σ :=
  if s.any (fun e => e.key == k) then
    s.map (fun e => if e.key == k then ⟨k, v, now⟩ else e)
  else s ++ [⟨k, v, now⟩]

/-- `getSession`: refresh `lastUsed` on hit, return the session. -/
def getSession (now : Int) (k : String) (s : SessionStore σ) :
    Option σ × SessionStore σ :=
  match s.find? (fun e => e.key == k) with
  | none => (none, s)
  | some e =>
      (some e.session,
       s.map (fun x => if x.key == k then { x with lastUsed := now } else x))

/-- `deleteSession`: dispose (best-effort, failures swallowed) and remove the
entry; the disposed sessions are returned as a log. -/
def storeDelete (s : SessionStore σ) (k : String) : SessionStore σ × List σ :=
  (s.filter (fun e => !(e.key == k)),
   (s.filter (fun e => e.key == k)).map (·.session))

/-- Phase 1 of `evictSessions`: keep exactly the entries whose age does not
exceed `SESSION_TTL_MS` (the loop deletes every entry with
`now - lastUsed > SESSION_TTL_MS`). -/
def ttlSurvivors (now : Int) (s : SessionStore σ) : SessionStore σ :=
  s.filter (fun e => decide (now - e.lastUsed ≤ SESSION_TTL_MS))

/-- Stable insertion step for `luSort`. -/
def luInsert (e : SessionEntry σ) : SessionStore σ → SessionStore σ
  | [] => [e]
  | x :: xs => if e.lastUsed ≤ x.lastUsed then e :: x :: xs else x :: luInsert e xs

/-- `[...sessions.entries()].sort((a, b) => a[1].lastUsed - b[1].lastUsed)`:
stable sort by ascending `lastUsed` (`Array.prototype.sort` is stable, so
entries with equal `lastUsed` keep their insertion order). -/
def luSort : SessionStore σ → SessionStore σ
  | [] => []
  | x :: xs => luInsert x (luSort xs)

/-- The entries deleted by phase 2: `sorted[i]` for `i < sorted.length - SESSION_MAX`. -/
def lruVictims (s1 : SessionStore σ) : SessionStore σ :=
  (luSort s1).take (s1.length - SESSION_MAX)

/-- `evictSessions()`: TTL sweep, then, if more than `SESSION_MAX` entries
remain, delete the oldest (by `lastUsed`) until `SESSION_MAX` remain.
Returns the retained store (in map order) and the disposed sessions. -/
def evictSessions (now : Int) (s : SessionStore σ) : SessionStore σ × List σ :=
  let s1 := ttlSurvivors now s
  let ttlDisposed :=
    (s.filter (fun e => decide (now - e.lastUsed > SESSION_TTL_MS))).map (·.session)
  if s1.length > SESSION_MAX then
    let vks := (lruVictims s1).map (·.key)
    (s1.filter (fun e => !(vks.contains e.key)),
     ttlDisposed ++ (lruVictims s1).map (·.session))
  else (s1, ttlDisposed)

/-- `setSession`: `sessions.set(key, { session, lastUsed: Date.now() })`
followed by a synchronous `evictSessions()`.  Note: no disposal of a
previously stored session under the same key happens here. -/
def setSession (now : Int) (k : String) (v : σ) (s : SessionStore σ) :
    SessionStore σ × List σ :=
  evictSessions now (storeSet s k v now)

/-- A concrete 21-entry store (distinct keys, strictly increasing `lastUsed`)
used to exercise the capacity-pressure eviction theorems. -/
def c2Store : SessionStore Nat :=
  (List.range 21).map (fun i => ⟨String.mk (List.replicate i 'a'), i, (i : Int)⟩)

-- ==================== Error classifier (src/agent.js) ====================

/-- The `lastError` record: `{ status, message }`.  `message : Option String`
models a possibly-`undefined` JS string. -/
structure ClassifiedError where
  status : Int
  message : Option String
deriving Repr, DecidableEq

def rateLimitedText : String := "请求过于频繁或配额已用完"

def unavailableText : String := "AI 服务暂时不可用"

/-- Classifier applied to a `message_end` event whose `errorMessage` is a
nonempty string (src/agent.js, both variants): literal substring tests for
`quota` / `429`, then for `500` / `unavailable`, else unknown with the
message sliced to 200 characters. -/
def classifyMessageEnd (msg : String) : ClassifiedError :=
  if strIncludes msg "quota" || strIncludes msg "429" then
    ⟨429, some rateLimitedText⟩
  else if strIncludes msg "500" || strIncludes msg "unavailable" then
    ⟨500, some unavailableText⟩
  else ⟨0, some (jsSliceTo msg 200)⟩

-- ==================== auto_retry_start handler (src/agent.js) ====================

/-- Parsed JSON values (`JSON.parse` results).  Object fields are an
association list; `lookup` models property access. -/
inductive Jv where
  | null
  | bool (b : Bool)
  | num (n : Int)
  | str (s : String)
  | arr (elems : List Jv)
  | obj (fields : List (String × Jv))

/-- Constructor test for JS `null` (plain property access on it throws). -/
def jvIsNull : Jv → Bool
  | .null => true
  | _ => false

/-- JS property access `v.f`: `none` models `undefined` (absent field, or a
non-object, non-null receiver). -/
def jvField : Jv → String → Option Jv
  | .obj fields, f => fields.lookup f
  | _, _ => none

/-- JS optional chaining `v.error?.f`. -/
def jvErrField (v : Jv) (f : String) : Option Jv :=
  match jvField v "error" with
  | none => none
  | some ev => jvField ev f

/-- JS truthiness of a possibly-`undefined` value. -/
def jvTruthy : Option Jv → Bool
  | none => false
  | some .null => false
  | some (.bool b) => b
  | some (.num n) => !(n == 0)
  | some (.str s) => !(s == "")
  | some (.arr _) => true
  | some (.obj _) => true

/-- JS `String(v)` coercion (arrays join their elements with commas). -/
def jsToString : Jv → String
  | .null => "null"
  | .bool true => "true"
  | .bool false => "false"
  | .num n => toString n
  | .str s => s
  | .arr l => String.intercalate "," (l.attach.map (fun x => jsToString x.1))
  | .obj _ => "[object Object]"
decreasing_by
  simp only [Jv.arr.sizeOf_spec]
  have := List.sizeOf_lt_of_mem x.2
  omega

/-- The literal `'{}'` that the handler parses when a payload is falsy. -/
def jsEmptyObj : String := "\x7b\x7d"

/-- The `try` block of the `auto_retry_start` handler.  `jp` models
`JSON.parse` over strings (`none` = the parse threw); `Except.error ()`
models a thrown exception reaching the surrounding `catch`.  A plain
property access on `null` (`errData.error`, `innerErr.error`) also throws.
Statuses in the wild are JSON numbers; a non-numeric `code` is normalised to
0 here (in JS a non-numeric truthy `code` would be stored verbatim). -/
def autoRetryTry (jp : String → Option Jv) (errorMessage : Option String) :
    Except Unit ClassifiedError :=
  match jp (jsOrStr errorMessage jsEmptyObj) with
  | none => .error ()
  | some errData =>
    if jvIsNull errData then .error ()
    else
      let emVal : Option Jv := jvErrField errData "message"
      let innerSrc : String :=
        if jvTruthy emVal then jsToString (emVal.getD .null) else jsEmptyObj
      match jp innerSrc with
      | none => .error ()
      | some innerErr =>
        if jvIsNull innerErr then .error ()
        else
          let code : Option Jv := jvErrField innerErr "code"
          let msg : Option Jv := jvErrField innerErr "message"
          if (match code with | some (.num n) => n == 429 | _ => false) then
            .ok ⟨429, some rateLimitedText⟩
          else if (match code with | some (.num n) => decide (500 ≤ n) | _ => false) then
            .ok ⟨(match code with | some (.num n) => n | _ => 0), some unavailableText⟩
          else
            .ok ⟨(match code with | some (.num n) => n | _ => 0),
                 (match msg with
                  | some (.str s) => if s = "" then errorMessage else some s
                  | some v => if jvTruthy (some v) then some (jsToString v) else errorMessage
                  | none => errorMessage)⟩

/-- The whole `auto_retry_start` handler: the `catch` records
`{ status: 0, message: event.errorMessage }`. -/
def classifyAutoRetry (jp : String → Option Jv) (errorMessage : Option String) :
    ClassifiedError :=
  match autoRetryTry jp errorMessage with
  | .error _ => ⟨0, errorMessage⟩
  | .ok r => r

/-- A concrete `JSON.parse` oracle that only parses the literal `'{}'`. -/
def c10jp : String → Option Jv :=
  fun t => if t = jsEmptyObj then some (.obj []) else none

-- ==================== Stream orchestrator (runAgent, first variant) ====================

/-- Mutable state of one `runAgent` invocation. -/
structure AgentState where
  fullResponse : String := ""
  toolName : String := ""
  lastError : Option ClassifiedError := none
  streamMsgId : Option Nat := none
  lastDisplayedText : String := ""
  updateTimer : Bool := false
  typingTimer : Bool := false
  loadingTimer : Bool := false
  loadingFrame : Nat := 0
  isUpdating : Bool := false
  chatId : Option Nat := none
  subscribedMain : Bool := false
  subscribedTool : Bool := false
deriving Repr, DecidableEq

/-- Calls made against the messaging channel.  `decorated` records whether a
`reply_markup` keyboard (a decoration) was attached; `ok` the call outcome. -/
inductive ChanAct where
  | sendPlaceholder (ok : Bool)
  | edit (markdown : Bool) (text : String) (decorated : Bool) (ok : Bool)
  | delMsg
  | typing
deriving Repr, DecidableEq

def isEditAct : ChanAct → Bool
  | .edit _ _ _ _ => true
  | _ => false

def isOkEdit : ChanAct → Bool
  | .edit _ _ _ ok => ok
  | _ => false

def isMdEdit : ChanAct → Bool
  | .edit true _ _ _ => true
  | _ => false

def loadingFrames : List String :=
  ["💭 思考中", "💭 思考中.", "💭 思考中..", "💭 思考中..."]

/-- JS truthiness of an optional string. -/
def optStrTruthy : Option String → Bool
  | none => false
  | some s => !(s == "")

/-- The display text `doUpdate` builds: trailing window with a truncation
marker when over the channel limit, a tool-status placeholder or suffix, and
the streaming cursor. -/
def displayTextOf (st : AgentState) : String :=
  let base :=
    if TG_MAX_LEN - 100 < st.fullResponse.length then
      "...\n\n" ++ jsSliceLast st.fullResponse (TG_MAX_LEN - 100)
    else st.fullResponse
  let withTool :=
    if st.toolName ≠ "" ∧ jsTrim st.fullResponse = "" then
      "🔧 " ++ st.toolName ++ "..."
    else if st.toolName ≠ "" then
      base ++ "\n\n🔧 " ++ st.toolName ++ "..."
    else base
  withTool ++ " ▌"

/-- `doUpdate` (first variant, src/agent.js 241-301): no-op while an update
is in flight, or when nothing changed and no tool is active; otherwise stop
the loading animation once content exists and edit the outbound message —
markdown first, plain-text fallback — recording the last successfully
displayed text.  `conv` models `convertToTelegramMarkdown`; `mdOk`/`plainOk`
are the two edit attempts' outcomes. -/
def doUpdate (conv : String → String) (mdOk plainOk : Bool) (st : AgentState) :
    AgentState × List ChanAct :=
  if st.isUpdating then (st, [])
  else if st.fullResponse = st.lastDisplayedText ∧ st.toolName = "" then (st, [])
  else
    let st1 := if jsTrim st.fullResponse ≠ "" then { st with loadingTimer := false } else st
    let d := displayTextOf st1
    let t := conv d
    match st1.streamMsgId, st1.chatId with
    | some _, some _ =>
        if mdOk then
          ({ st1 with lastDisplayedText := st1.fullResponse },
           [.typing, .edit true t false true])
        else if plainOk then
          ({ st1 with lastDisplayedText := st1.fullResponse },
           [.typing, .edit true t false false, .edit false d false true])
        else
          (st1, [.typing, .edit true t false false, .edit false d false false])
    | _, _ => (st1, [])

/-- `doUpdate` (second variant, src/agent.js 639-669): no tool guard, and
`lastDisplayedText` is recorded before the edit is attempted. -/
def doUpdateV2 (conv : String → String) (mdOk plainOk : Bool) (st : AgentState) :
    AgentState × List ChanAct :=
  if st.isUpdating then (st, [])
  else if st.fullResponse = st.lastDisplayedText then (st, [])
  else
    let st1 := { st with lastDisplayedText := st.fullResponse }
    let d :=
      (if TG_MAX_LEN - 100 < st.fullResponse.length then
        "...\n\n" ++ jsSliceLast st.fullResponse (TG_MAX_LEN - 100)
      else st.fullResponse) ++ " ▌"
    let t := conv d
    match st1.streamMsgId, st1.chatId with
    | some _, some _ =>
        if mdOk then (st1, [.typing, .edit true t false true])
        else if plainOk then
          (st1, [.typing, .edit true t false false, .edit false d false true])
        else (st1, [.typing, .edit true t false false, .edit false d false false])
    | _, _ => (st1, [])

/-- `assistantMessageEvent` payloads inside a `message_update`. -/
inductive AssistantEvent where
  | text_delta (delta : String)
  | text_start
  | text_end
  | toolcall_start (name : Option String)
  | toolcall_delta
  | toolcall_end
  | otherAssistant
deriving Repr, DecidableEq

/-- Events delivered by `session.subscribe`. -/
inductive StreamEvent where
  | message_update (e : AssistantEvent)
  | message_end (errorMessage : Option String)
  | errorEvent (err : ClassifiedError)
  | auto_retry_start (errorMessage : Option String)
  | tool_execution_start
  | tool_execution_end
  | otherEvent
deriving Repr, DecidableEq

/-- The first subscriber (src/agent.js 317-394): classify errors from
`message_end`/`error`/`auto_retry_start`; on `text_delta` append and arm the
update timer; on `toolcall_start` record the tool name and update at once. -/
def handleMainEvent (conv : String → String) (jp : String → Option Jv)
    (mdOk plainOk : Bool) (st : AgentState) :
    StreamEvent → AgentState × List ChanAct
  | .message_end em =>
      if optStrTruthy em then
        ({ st with lastError := some (classifyMessageEnd (em.getD "")) }, [])
      else (st, [])
  | .errorEvent err => ({ st with lastError := some err }, [])
  | .auto_retry_start em =>
      ({ st with lastError := some (classifyAutoRetry jp em) }, [])
  | .message_update ae =>
      match ae with
      | .text_delta d =>
          ({ st with fullResponse := st.fullResponse ++ d, updateTimer := true }, [])
      | .toolcall_start name =>
          doUpdate conv mdOk plainOk { st with toolName := jsOrStr name "tool" }
      | _ => (st, [])
  | _ => (st, [])

/-- The second subscriber (src/agent.js 397-405): on `tool_execution_end`
clear the tool name and update. -/
def handleToolEvent (conv : String → String) (mdOk plainOk : Bool)
    (st : AgentState) : StreamEvent → AgentState × List ChanAct
  | .tool_execution_end => doUpdate conv mdOk plainOk { st with toolName := "" }
  | _ => (st, [])

/-- `updateLoadingAnimation` (src/agent.js 204-227): advance the frame and
edit the placeholder, except when content exists and no tool is running. -/
def loadingAnimation (ok : Bool) (st : AgentState) : AgentState × List ChanAct :=
  match st.streamMsgId with
  | none => (st, [])
  | some _ =>
      let st1 := { st with loadingFrame := (st.loadingFrame + 1) % 4 }
      if jsTrim st1.fullResponse ≠ "" then
        if st1.toolName ≠ "" then
          (st1, [.edit false (st1.fullResponse ++ "\n\n🔧 " ++ st1.toolName ++ "...")
                  false ok])
        else (st1, [])
      else
        let text :=
          if st1.toolName ≠ "" then "🔧 " ++ st1.toolName ++ "..."
          else loadingFrames.getD st1.loadingFrame ""
        (st1, [.edit false text false ok])

/-- One scheduling step: an event delivered to the live subscribers, or one
of the three interval timers firing. -/
inductive StreamItem where
  | ev (mdOk plainOk : Bool) (e : StreamEvent)
  | updateTick (mdOk plainOk : Bool)
  | loadTick (ok : Bool)
  | typeTick
deriving Repr, DecidableEq

def stepItem (conv : String → String) (jp : String → Option Jv)
    (st : AgentState) : StreamItem → AgentState × List ChanAct
  | .ev mdOk plainOk e =>
      if st.subscribedMain then
        if (handleMainEvent conv jp mdOk plainOk st e).1.subscribedTool then
          ((handleToolEvent conv mdOk plainOk
              (handleMainEvent conv jp mdOk plainOk st e).1 e).1,
           (handleMainEvent conv jp mdOk plainOk st e).2 ++
             (handleToolEvent conv mdOk plainOk
               (handleMainEvent conv jp mdOk plainOk st e).1 e).2)
        else handleMainEvent conv jp mdOk plainOk st e
      else if st.subscribedTool then handleToolEvent conv mdOk plainOk st e
      else (st, [])
  | .updateTick mdOk plainOk =>
      if st.updateTimer then doUpdate conv mdOk plainOk st else (st, [])
  | .loadTick ok => if st.loadingTimer then loadingAnimation ok st else (st, [])
  | .typeTick => if st.typingTimer then (st, [.typing]) else (st, [])

def runItems (conv : String → String) (jp : String → Option Jv)
    (st : AgentState) : List StreamItem → AgentState × List ChanAct
  | [] => (st, [])
  | it :: rest =>
      let r1 := stepItem conv jp st it
      let r2 := runItems conv jp r1.1 rest
      (r2.1, r1.2 ++ r2.2)

/-- Outcomes of the network calls `runAgent` itself performs. -/
structure NetOracle where
  replyMsgId : Option Nat
  finalMd : Bool
  finalPlain : Bool
  postDelete : Bool
  postMd : Bool
  postPlain : Bool
deriving Repr, DecidableEq

/-- The `finally` block (src/agent.js 416-425): stop the update, typing and
loading timers, release both subscriptions, and perform the one final
`doUpdate` flush. -/
def finalizeRun (conv : String → String) (o : NetOracle) (st : AgentState) :
    AgentState × List ChanAct :=
  doUpdate conv o.finalMd o.finalPlain
    { st with updateTimer := false, typingTimer := false, loadingTimer := false,
              subscribedMain := false, subscribedTool := false }

/-- How `runAgent` ends. -/
inductive RunResult where
  | promptRaised
  | raised (status : Int) (message : String)
  | ok (response : String) (streamMsgId : Option Nat)
deriving Repr, DecidableEq

/-- The terminal logic after the `finally` block (src/agent.js 427-454):
raise when a terminal error exists and no content accumulated (deleting the
placeholder first); otherwise deliver the content, editing the placeholder
into the final text (markdown, then plain fallback), deleting it instead
when the content exceeds the channel limit. -/
def finishRunAgent (conv : String → String) (o : NetOracle) (st : AgentState) :
    RunResult × List ChanAct :=
  if st.lastError.isSome ∧ jsTrim st.fullResponse = "" then
    let acts : List ChanAct :=
      match st.streamMsgId, st.chatId with
      | some _, some _ => [.delMsg]
      | _, _ => []
    match st.lastError with
    | some e => (.raised e.status (jsOrStr e.message "AI 请求失败"), acts)
    | none => (.raised 0 "AI 请求失败", acts)
  else
    match st.streamMsgId, st.chatId with
    | some mid, some _ =>
        if jsTrim st.fullResponse ≠ "" then
          if TG_MAX_LEN < st.fullResponse.length then
            if o.postDelete then
              (.ok (conv st.fullResponse) none, [.delMsg])
            else if o.postPlain then
              (.ok st.fullResponse (some mid),
               [.delMsg, .edit false st.fullResponse false true])
            else
              (.ok (conv st.fullResponse) (some mid),
               [.delMsg, .edit false st.fullResponse false false])
          else
            if o.postMd then
              (.ok (conv st.fullResponse) (some mid),
               [.edit true (conv st.fullResponse) false true])
            else if o.postPlain then
              (.ok st.fullResponse (some mid),
               [.edit true (conv st.fullResponse) false false,
                .edit false st.fullResponse false true])
            else
              (.ok (conv st.fullResponse) (some mid),
               [.edit true (conv st.fullResponse) false false,
                .edit false st.fullResponse false false])
        else (.ok (conv st.fullResponse) (some mid), [])
    | _, _ => (.ok (conv st.fullResponse) st.streamMsgId, [])

/-- The initial state of `runAgent`: typing, loading and update timers armed,
both subscriptions live, the placeholder message just created. -/
def initAgentState (o : NetOracle) (chatId : Option Nat) : AgentState :=
  { chatId := chatId, typingTimer := true, streamMsgId := o.replyMsgId,
    loadingTimer := true, updateTimer := true,
    subscribedMain := true, subscribedTool := true }

/-- `runAgent` (first variant): arm the typing timer, create the placeholder,
arm the loading animation and the throttled update timer, consume the stream,
run the `finally` block, then rethrow `session.prompt`'s failure or run the
terminal logic. -/
def runAgentModel (conv : String → String) (jp : String → Option Jv)
    (o : NetOracle) (chatId : Option Nat) (promptThrows : Bool)
    (items : List StreamItem) :
    AgentState × RunResult × List ChanAct :=
  let initActs : List ChanAct := [.typing, .sendPlaceholder o.replyMsgId.isSome]
  let r1 := runItems conv jp (initAgentState o chatId) items
  let r2 := finalizeRun conv o r1.1
  if promptThrows then (r2.1, .promptRaised, initActs ++ r1.2 ++ r2.2)
  else
    let r3 := finishRunAgent conv o r2.1
    (r2.1, r3.1, initActs ++ r1.2 ++ r2.2 ++ r3.2)

/-- The completion edit performed by `processUserMessage` after `runAgent`
returns (part_005 lines 341-353): when a stream message survives, edit it to
`response + elapsed time` with the done keyboard attached (the completion
decoration); markdown first, plain fallback. -/
def completeTask (response : String) (streamMsgId : Option Nat)
    (durationStr : String) (mdOk plainOk : Bool) : List ChanAct :=
  match streamMsgId with
  | some _ =>
      let finalText := response ++ "\n\n⏱ " ++ durationStr
      if mdOk then [.edit true finalText true true]
      else if plainOk then
        [.edit true finalText true false, .edit false finalText true true]
      else [.edit true finalText true false, .edit false finalText true false]
  | none => []

-- ==================== C9 scenario ====================

/-- The C9 scenario oracle: the placeholder is created and every channel
call succeeds. -/
def c9Oracle : NetOracle := ⟨some 1, true, true, true, true, true⟩

/-- The C9 event sequence: `text_delta("Hi")`, `text_delta(" there")`,
`message_end` with no error; `STREAM_THROTTLE_MS` exceeds the sequence
duration, so no timer tick occurs. -/
def c9Items : List StreamItem :=
  [.ev true true (.message_update (.text_delta "Hi")),
   .ev true true (.message_update (.text_delta " there")),
   .ev true true (.message_end none)]

def c9Run : AgentState × RunResult × List ChanAct :=
  runAgentModel id (fun _ => none) c9Oracle (some 7) false c9Items

/-- All edit calls issued against the outbound message over the whole C9
scenario, the caller's completion edit included. -/
def c9Edits : List ChanAct :=
  (c9Run.2.2 ++
    (match c9Run.2.1 with
     | .ok resp mid => completeTask resp mid "0.1秒" true true
     | _ => [])).filter isEditAct

/-- A state with an active tool and no pending content change, used to
exercise `doUpdate`'s tool-active branch. -/
def c6State : AgentState :=
  { fullResponse := "hi", toolName := "bash", lastDisplayedText := "hi",
    streamMsgId := some 1, chatId := some 7 }

-- ==================== Task runner (processUserMessage, part_005) ====================

/-- An exception reaching `processUserMessage`'s `catch`. -/
inductive ThrownErr where
  | abortE
  | statusE (status : Int) (message : String)
deriving Repr, DecidableEq

/-- How the accepted task body ends. -/
inductive TaskOutcome where
  | succeeded
  | failed (e : ThrownErr)
deriving Repr, DecidableEq

/-- Observable result of one `processUserMessage` call. -/
structure PMResult where
  accepted : Bool
  busyNoticeWithCancel : Bool
  agentInvoked : Bool
  running : List String
  timerCleared : Bool
  taskStatus : Option String
deriving Repr, DecidableEq

/-- `runningTasks.has(key)` followed by `runningTasks.set(key, true)`, both
inside one synchronous turn. -/
def tryAcquire (running : List String) (k : String) : Bool × List String :=
  if running.contains k then (false, running) else (true, k :: running)

/-- `processUserMessage` (part_005 lines 297-375): blank input returns
silently; a key already running is rejected with the busy notice carrying
the `cancel_task` button; otherwise the task runs and the `finally` block
clears the timeout and deletes the running flag on success, error and
cancellation alike. -/
def processUserMessage (running : List String) (k : String) (userText : String)
    (outcome : TaskOutcome) : PMResult :=
  if jsTrim userText = "" then ⟨false, false, false, running, false, none⟩
  else
    match tryAcquire running k with
    | (false, r) => ⟨false, true, false, r, false, none⟩
    | (true, r) =>
        let status :=
          match outcome with
          | .succeeded => "ok"
          | .failed .abortE => "cancelled"
          | .failed (.statusE _ _) => "error"
        ⟨true, false, true, r.erase k, true, some status⟩

end Botk

namespace Botk

-- ==================== Sorting lemmas ====================

theorem luInsert_perm (e : SessionEntry σ) (l : SessionStore σ) :
    List.Perm (luInsert e l) (e :: l) := by
  induction l with
  | nil => simp [luInsert]
  | cons x xs ih =>
      by_cases h : e.lastUsed ≤ x.lastUsed
      · simp [luInsert, h]
      · simp only [luInsert, if_neg h]
        exact (ih.cons x).trans (List.Perm.swap e x xs)

theorem luSort_perm (l : SessionStore σ) : List.Perm (luSort l) l := by
  induction l with
  | nil => simp [luSort]
  | cons x xs ih =>
      exact (luInsert_perm x (luSort xs)).trans (ih.cons x)

theorem luInsert_pairwise (e : SessionEntry σ) (l : SessionStore σ)
    (h : l.Pairwise (fun a b => a.lastUsed ≤ b.lastUsed)) :
    (luInsert e l).Pairwise (fun a b => a.lastUsed ≤ b.lastUsed) := by
  induction l with
  | nil => simp [luInsert]
  | cons x xs ih =>
      rcases List.pairwise_cons.mp h with ⟨hx, hxs⟩
      by_cases hle : e.lastUsed ≤ x.lastUsed
      · rw [luInsert, if_pos hle]
        refine List.pairwise_cons.mpr ⟨?_, h⟩
        intro b hb
        rcases List.mem_cons.mp hb with hb | hb
        · rw [hb]; exact hle
        · exact hle.trans (hx b hb)
      · rw [luInsert, if_neg hle]
        refine List.pairwise_cons.mpr ⟨?_, ih hxs⟩
        intro b hb
        rcases List.mem_cons.mp ((luInsert_perm e xs).mem_iff.mp hb) with hb | hb
        · rw [hb]; exact le_of_not_le hle
        · exact hx b hb

theorem luSort_pairwise (l : SessionStore σ) :
    (luSort l).Pairwise (fun a b => a.lastUsed ≤ b.lastUsed) := by
  induction l with
  | nil => simp [luSort]
  | cons x xs ih => exact luInsert_pairwise x (luSort xs) ih

/-- Stability of `luSort`: among entries with one and the same `lastUsed`
value, the sorted list keeps the original (insertion) order. -/
theorem luSort_stable (l : SessionStore σ) (t : Int) :
    (luSort l).filter (fun e => decide (e.lastUsed = t)) =
      l.filter (fun e => decide (e.lastUsed = t)) := by
  have key : ∀ (e : SessionEntry σ) (m : SessionStore σ),
      (luInsert e m).filter (fun x => decide (x.lastUsed = t)) =
        (e :: m).filter (fun x => decide (x.lastUsed = t)) := by
    intro e m
    induction m with
    | nil => simp [luInsert]
    | cons x xs ih =>
        by_cases hle : e.lastUsed ≤ x.lastUsed
        · simp [luInsert, hle]
        · have hlt : x.lastUsed < e.lastUsed := lt_of_not_le hle
          rw [luInsert, if_neg hle]
          by_cases hx : x.lastUsed = t
          · by_cases he : e.lastUsed = t
            · omega
            · simp [List.filter_cons, hx, he, ih]
          · by_cases he : e.lastUsed = t
            · simp [List.filter_cons, hx, he, ih]
            · simp [List.filter_cons, hx, he, ih]
  induction l with
  | nil => simp [luSort]
  | cons x xs ih =>
      calc (luSort (x :: xs)).filter (fun e => decide (e.lastUsed = t))
          = (x :: luSort xs).filter (fun e => decide (e.lastUsed = t)) :=
            key x (luSort xs)
        _ = (x :: xs).filter (fun e => decide (e.lastUsed = t)) := by
            by_cases hx : x.lastUsed = t <;>
              simp [List.filter_cons, hx, ih]

-- ==================== Counting lemmas ====================

theorem filter_not_length_add (p : α → Bool) (l : List α) :
    (l.filter (fun a => !(p a))).length + (l.filter p).length = l.length := by
  induction l with
  | nil => simp
  | cons x xs ih =>
      by_cases h : p x <;> simp [List.filter_cons, h] <;> omega

theorem lruVictims_length (l : SessionStore σ) (h : SESSION_MAX < l.length) :
    (lruVictims l).length = l.length - SESSION_MAX := by
  have hs : (luSort l).length = l.length := (luSort_perm l).length_eq
  simp [lruVictims, List.length_take, hs]

theorem victims_filter_count (l : SessionStore σ) :
    (lruVictims l).length ≤
      (l.filter (fun e => ((lruVictims l).map (·.key)).contains e.key)).length := by
  set vks := (lruVictims l).map (·.key) with hvks
  have hperm : List.Perm (luSort l) l := luSort_perm l
  have hcount : l.countP (fun e => vks.contains e.key) =
      (luSort l).countP (fun e => vks.contains e.key) :=
    (hperm.countP_eq _).symm
  have hsplit : lruVictims l ++ (luSort l).drop (l.length - SESSION_MAX) = luSort l :=
    List.take_append_drop _ _
  have htake : (lruVictims l).countP (fun e => vks.contains e.key) =
      (lruVictims l).length := by
    rw [List.countP_eq_length]
    intro a ha
    have : a.key ∈ vks := by
      rw [hvks]
      exact List.mem_map_of_mem (·.key) ha
    simpa [List.contains] using this
  calc (lruVictims l).length
      = (lruVictims l).countP (fun e => vks.contains e.key) := htake.symm
    _ ≤ (luSort l).countP (fun e => vks.contains e.key) := by
        rw [← hsplit, List.countP_append]; omega
    _ = l.countP (fun e => vks.contains e.key) := hcount.symm
    _ = (l.filter (fun e => vks.contains e.key)).length :=
        List.countP_eq_length_filter (fun e => vks.contains e.key) l
/-- After any `evictSessions` pass the store holds at most `SESSION_MAX`
entries and every retained entry's age is at most `SESSION_TTL_MS`. -/
theorem evict_pass_bounds (now : Int) (s : SessionStore σ) :
    (evictSessions now s).1.length ≤ SESSION_MAX ∧
      ∀ e ∈ (evictSessions now s).1, now - e.lastUsed ≤ SESSION_TTL_MS := by
  unfold evictSessions
  set s1 := ttlSurvivors now s with hs1
  by_cases h : SESSION_MAX < s1.length
  · simp only [h, if_pos, gt_iff_lt]
    constructor
    · have hadd := filter_not_length_add
        (fun e => ((lruVictims s1).map (·.key)).contains e.key) s1
      have hcount := victims_filter_count s1
      have hv := lruVictims_length s1 h
      omega
    · intro e he
      have he1 : e ∈ s1 := List.mem_of_mem_filter he
      rw [hs1] at he1
      simp only [ttlSurvivors] at he1
      have := List.of_mem_filter he1
      simpa using this
  · simp only [gt_iff_lt, h, if_neg, not_false_iff]
    constructor
    · omega
    · intro e he
      have he1 := he
      rw [hs1] at he1
      simp only [ttlSurvivors] at he1
      have := List.of_mem_filter he1
      simpa using this

/-- C1: for every sequence of `setSession` calls, immediately after any run of
`evictSessions` (including the one triggered synchronously by `setSession`),
the session store holds at most `SESSION_MAX` entries, and every retained
entry's age (`now - lastUsed`) is at most `SESSION_TTL_MS`. -/
theorem evictSessions_size_and_age_invariant (now : Int) (s : SessionStore σ)
    (k : String) (v : σ) :
    ((evictSessions now s).1.length ≤ SESSION_MAX ∧
       ∀ e ∈ (evictSessions now s).1, now - e.lastUsed ≤ SESSION_TTL_MS) ∧
    ((setSession now k v s).1.length ≤ SESSION_MAX ∧
       ∀ e ∈ (setSession now k v s).1, now - e.lastUsed ≤ SESSION_TTL_MS) :=
  ⟨evict_pass_bounds now s, evict_pass_bounds now (storeSet s k v now)⟩

-- ==================== C2: LRU retention under capacity pressure ====================

theorem strContains_of_mem {l : List String} {a : String} (h : a ∈ l) :
    l.contains a = true := by
  simpa [List.contains] using h

theorem mem_of_strContains {l : List String} {a : String} (h : l.contains a = true) :
    a ∈ l := by
  simpa [List.contains] using h

theorem ttlSurvivors_eq_self (now : Int) (s : SessionStore σ)
    (hage : ∀ e ∈ s, now - e.lastUsed ≤ SESSION_TTL_MS) :
    ttlSurvivors now s = s := by
  simp only [ttlSurvivors]
  rw [List.filter_eq_self]
  intro e he
  simpa using hage e he

/-- C2: when `evictSessions` runs on a store with more than `SESSION_MAX`
entries, all alive (age ≤ TTL) and with pairwise-distinct `lastUsed`
timestamps, exactly `SESSION_MAX` entries are retained and every retained
entry was touched strictly more recently than every evicted one; moreover the
eviction order is produced by a stable sort, so entries sharing a `lastUsed`
value are evicted deterministically in their original insertion order. -/
theorem evictSessions_retains_most_recent (now : Int) (s : SessionStore σ)
    (hwf : StoreWF s)
    (hdist : (s.map (·.lastUsed)).Nodup)
    (hage : ∀ e ∈ s, now - e.lastUsed ≤ SESSION_TTL_MS)
    (hlen : SESSION_MAX < s.length) :
    ((evictSessions now s).1.length = SESSION_MAX ∧
      ∀ r ∈ (evictSessions now s).1, ∀ e ∈ s, e ∉ (evictSessions now s).1 →
        e.lastUsed < r.lastUsed) ∧
    (∀ (l : SessionStore Nat) (t : Int),
      (luSort l).filter (fun e => decide (e.lastUsed = t)) =
        l.filter (fun e => decide (e.lastUsed = t))) := by
  have hs1 : ttlSurvivors now s = s := ttlSurvivors_eq_self now s hage
  set vks := (lruVictims s).map (·.key) with hvks
  set dropPart := (luSort s).drop (s.length - SESSION_MAX) with hdrop
  have hsplit : lruVictims s ++ dropPart = luSort s := by
    rw [hdrop, lruVictims]; exact List.take_append_drop _ _
  have hretained : (evictSessions now s).1 =
      s.filter (fun e => !(vks.contains e.key)) := by
    simp only [evictSessions, hs1, hlen, if_pos, gt_iff_lt]
  -- keys of the sorted list are still unique
  have hwf' : (s.map (·.key)).Nodup := hwf
  have hkeys : ((luSort s).map (·.key)).Nodup :=
    ((luSort_perm s).map (·.key)).nodup_iff.mpr hwf'
  have hkeysplit : ((lruVictims s).map (·.key) ++ dropPart.map (·.key)).Nodup := by
    have := hkeys
    rw [← hsplit, List.map_append] at this
    exact this
  have hdisj : ∀ a, a ∈ (lruVictims s).map (·.key) → a ∉ dropPart.map (·.key) := by
    intro a ha hb
    rcases List.nodup_append.mp hkeysplit with ⟨-, -, hd⟩
    exact hd ha hb
  -- characterisation of membership
  have hmem_drop : ∀ r, r ∈ (evictSessions now s).1 → r ∈ dropPart := by
    intro r hr
    rw [hretained] at hr
    have hrs : r ∈ s := (List.mem_filter.mp hr).1
    have hrnot : (!(vks.contains r.key)) = true := (List.mem_filter.mp hr).2
    have : r ∈ lruVictims s ++ dropPart := by
      rw [hsplit]; exact (luSort_perm s).mem_iff.mpr hrs
    rcases List.mem_append.mp this with h | h
    · exfalso
      have hk : r.key ∈ vks := by
        rw [hvks]; exact List.mem_map_of_mem (·.key) h
      rw [strContains_of_mem hk] at hrnot
      simp at hrnot
    · exact h
  have hmem_take : ∀ e, e ∈ s → e ∉ (evictSessions now s).1 → e ∈ lruVictims s := by
    intro e hes hnot
    rw [hretained] at hnot
    have hp : vks.contains e.key = true := by
      by_cases hc : vks.contains e.key = true
      · exact hc
      · have hx : vks.contains e.key = false := Bool.eq_false_iff.mpr hc
        exact absurd (List.mem_filter.mpr
          ⟨hes, by rw [Bool.not_eq_true']; exact hx⟩) hnot
    have hin : e.key ∈ vks := mem_of_strContains hp
    have : e ∈ lruVictims s ++ dropPart := by
      rw [hsplit]; exact (luSort_perm s).mem_iff.mpr hes
    rcases List.mem_append.mp this with h | h
    · exact h
    · exfalso
      exact hdisj e.key (hvks ▸ hin) (List.mem_map_of_mem (·.key) h)
  refine ⟨⟨?_, ?_⟩, fun l t => luSort_stable l t⟩
  · -- exactly SESSION_MAX entries remain
    rw [hretained]
    have hadd := filter_not_length_add (fun e => vks.contains e.key) s
    have hge := victims_filter_count s
    rw [← hvks] at hge
    have hv := lruVictims_length s hlen
    -- the victim count is exactly the number of filtered-out entries
    have hle : (s.filter (fun e => vks.contains e.key)).length ≤ (lruVictims s).length := by
      have hcount : s.countP (fun e => vks.contains e.key) =
          (lruVictims s).countP (fun e => vks.contains e.key) +
            dropPart.countP (fun e => vks.contains e.key) := by
        rw [((luSort_perm s).countP_eq _).symm, ← hsplit, List.countP_append]
      have hdropzero : dropPart.countP (fun e => vks.contains e.key) = 0 := by
        rw [List.countP_eq_zero]
        intro y hy
        intro hcon
        have hym : y.key ∈ vks := mem_of_strContains hcon
        exact hdisj y.key (hvks ▸ hym) (List.mem_map_of_mem (·.key) hy)
      have htakele : (lruVictims s).countP (fun e => vks.contains e.key) ≤
          (lruVictims s).length := List.countP_le_length _
      calc (s.filter (fun e => vks.contains e.key)).length
          = s.countP (fun e => vks.contains e.key) :=
            (List.countP_eq_length_filter (fun e => vks.contains e.key) s).symm
        _ ≤ (lruVictims s).length := by rw [hcount, hdropzero]; omega
    omega
  · -- strict recency separation
    intro r hr e hes hnot
    have hrd : r ∈ dropPart := hmem_drop r hr
    have het : e ∈ lruVictims s := hmem_take e hes hnot
    have hpw := luSort_pairwise s
    rw [← hsplit] at hpw
    have hle : e.lastUsed ≤ r.lastUsed :=
      (List.pairwise_append.mp hpw).2.2 e het r hrd
    have hne : e.lastUsed ≠ r.lastUsed := by
      have hlu : ((luSort s).map (·.lastUsed)).Nodup :=
        ((luSort_perm s).map (·.lastUsed)).nodup_iff.mpr hdist
      have hlusplit : ((lruVictims s).map (·.lastUsed) ++ dropPart.map (·.lastUsed)).Nodup := by
        have := hlu
        rw [← hsplit, List.map_append] at this
        exact this
      rcases List.nodup_append.mp hlusplit with ⟨-, -, hd⟩
      intro heq
      exact hd (List.mem_map_of_mem (·.lastUsed) het)
        (heq ▸ List.mem_map_of_mem (·.lastUsed) hrd)
    exact lt_of_le_of_ne hle hne

/-- Witness for `evictSessions_retains_most_recent` at a concrete 21-entry store. -/
theorem evictSessions_retains_most_recent_witness :
    (StoreWF c2Store ∧ (c2Store.map (·.lastUsed)).Nodup ∧
      (∀ e ∈ c2Store, (21 : Int) - e.lastUsed ≤ SESSION_TTL_MS) ∧
      SESSION_MAX < c2Store.length) ∧
    (((evictSessions 21 c2Store).1.length = SESSION_MAX ∧
        ∀ r ∈ (evictSessions 21 c2Store).1, ∀ e ∈ c2Store,
          e ∉ (evictSessions 21 c2Store).1 → e.lastUsed < r.lastUsed) ∧
      (∀ (l : SessionStore Nat) (t : Int),
        (luSort l).filter (fun e => decide (e.lastUsed = t)) =
          l.filter (fun e => decide (e.lastUsed = t)))) :=
  ⟨⟨by unfold StoreWF; decide, by decide, by decide, by decide⟩,
    evictSessions_retains_most_recent 21 c2Store
      (by unfold StoreWF; decide) (by decide) (by decide) (by decide)⟩

-- ==================== C7: overwrite without disposal ====================

/-- C7 (code bug): `setSession` on an already-occupied key silently replaces
the entry.  Evaluating the model at the failing input — a store holding
session `1` under key `"k"`, then `setSession "k" 2` — shows the dispose log
is empty: session `1` is dropped without ever being disposed. -/
theorem setSession_overwrite_skips_disposal :
    setSession (σ := Nat) 0 "k" 2 [⟨"k", 1, 0⟩] = ([⟨"k", 2, 0⟩], []) := by
  decide

-- ==================== C5: message_end classification ====================

/-- C5 counterexample: `"HTTP 503"` indicates an HTTP status of 503 ≥ 500,
but contains neither `"500"` nor `"unavailable"` (nor `"quota"`/`"429"`), so
the code classifies it as Unknown with status 0 — not as ServiceUnavailable
with status 500 as the claim states. -/
theorem classifyMessageEnd_http503_counterexample :
    classifyMessageEnd "HTTP 503" = ⟨0, some "HTTP 503"⟩ ∧
    (500 : Int) ≤ 503 ∧
    classifyMessageEnd "HTTP 503" ≠ ⟨500, some unavailableText⟩ := by
  refine ⟨by decide, by decide, by decide⟩

/-- C5 (amended): the `message_end` classifier maps a message containing the
substring `"quota"` or `"429"` to status 429; otherwise one containing the
literal substring `"500"` or `"unavailable"` to status 500; otherwise to
status 0 with the message truncated to at most 200 characters. -/
theorem classifyMessageEnd_amended (msg : String) :
    ((strIncludes msg "quota" || strIncludes msg "429") = true →
      classifyMessageEnd msg = ⟨429, some rateLimitedText⟩) ∧
    ((strIncludes msg "quota" || strIncludes msg "429") = false →
      (strIncludes msg "500" || strIncludes msg "unavailable") = true →
      classifyMessageEnd msg = ⟨500, some unavailableText⟩) ∧
    ((strIncludes msg "quota" || strIncludes msg "429") = false →
      (strIncludes msg "500" || strIncludes msg "unavailable") = false →
      classifyMessageEnd msg = ⟨0, some (jsSliceTo msg 200)⟩ ∧
        (jsSliceTo msg 200).length ≤ 200) := by
  refine ⟨?_, ?_, ?_⟩
  · intro h1
    simp [classifyMessageEnd, h1]
  · intro h1 h2
    simp [classifyMessageEnd, h1, h2]
  · intro h1 h2
    refine ⟨by simp [classifyMessageEnd, h1, h2], ?_⟩
    exact List.length_take_le _ _

/-- Witness for `classifyMessageEnd_amended` at `"quota exceeded"`. -/
theorem classifyMessageEnd_amended_witness :
    (strIncludes "quota exceeded" "quota" || strIncludes "quota exceeded" "429") = true ∧
    classifyMessageEnd "quota exceeded" = ⟨429, some rateLimitedText⟩ :=
  ⟨by decide, (classifyMessageEnd_amended "quota exceeded").1 (by decide)⟩

-- ==================== C10: auto_retry_start robustness ====================

/-- C10: the `auto_retry_start` handler is total (every throw inside the
`try` is caught), and on every malformed or absent nesting — missing
`errorMessage`, an outer payload that does not parse, a parsed payload with
no truthy `error.message`, an inner payload that does not parse, or an inner
value with no `error` field — it records status 0 with the raw
`errorMessage`. -/
theorem classifyAutoRetry_malformed_fallback (jp : String → Option Jv)
    (h0 : jp jsEmptyObj = some (.obj [])) :
    (classifyAutoRetry jp none = ⟨0, none⟩) ∧
    (∀ s, s ≠ "" → jp s = none →
      classifyAutoRetry jp (some s) = ⟨0, some s⟩) ∧
    (∀ s v, s ≠ "" → jp s = some v → jvIsNull v = false →
      jvTruthy (jvErrField v "message") = false →
      classifyAutoRetry jp (some s) = ⟨0, some s⟩) ∧
    (∀ s v m, s ≠ "" → jp s = some v → jvIsNull v = false →
      jvErrField v "message" = some (.str m) → m ≠ "" → jp m = none →
      classifyAutoRetry jp (some s) = ⟨0, some s⟩) ∧
    (∀ s v m w, s ≠ "" → jp s = some v → jvIsNull v = false →
      jvErrField v "message" = some (.str m) → m ≠ "" → jp m = some w →
      jvIsNull w = false → jvField w "error" = none →
      classifyAutoRetry jp (some s) = ⟨0, some s⟩) := by
  refine ⟨?_, ?_, ?_, ?_, ?_⟩
  · simp [classifyAutoRetry, autoRetryTry, jsOrStr, h0, jvIsNull, jvErrField,
      jvField, jvTruthy]
  · intro s hs hp
    simp [classifyAutoRetry, autoRetryTry, jsOrStr, hs, hp]
  · intro s v hs hp hnull hfalsy
    have h1 : jsOrStr (some s) jsEmptyObj = s := by simp [jsOrStr, hs]
    simp only [classifyAutoRetry, autoRetryTry, h1, hp, hnull, hfalsy]
    simp [h0, jvIsNull, jvErrField, jvField]
  · intro s v m hs hp hnull hmsg hm hpm
    have h1 : jsOrStr (some s) jsEmptyObj = s := by simp [jsOrStr, hs]
    have h2 : jvTruthy (jvErrField v "message") = true := by
      rw [hmsg]; simp [jvTruthy, hm]
    have h3 : jsToString ((jvErrField v "message").getD .null) = m := by
      rw [hmsg]; simp [jsToString]
    simp only [classifyAutoRetry, autoRetryTry, h1, hp, hnull, h2, h3]
    simp [hpm]
  · intro s v m w hs hp hnull hmsg hm hpm hwnull hwerr
    have h1 : jsOrStr (some s) jsEmptyObj = s := by simp [jsOrStr, hs]
    have h2 : jvTruthy (jvErrField v "message") = true := by
      rw [hmsg]; simp [jvTruthy, hm]
    have h3 : jsToString ((jvErrField v "message").getD .null) = m := by
      rw [hmsg]; simp [jsToString]
    simp only [classifyAutoRetry, autoRetryTry, h1, hp, hnull, h2, h3]
    simp [hpm, hwnull, jvErrField, hwerr]

/-- Witness for `classifyAutoRetry_malformed_fallback`: an oracle that parses
only `'{}'`, applied to the unparsable payload `"oops"`. -/
theorem classifyAutoRetry_malformed_fallback_witness :
    c10jp jsEmptyObj = some (.obj []) ∧
    classifyAutoRetry c10jp (some "oops") = ⟨0, some "oops"⟩ :=
  ⟨by simp [c10jp], (classifyAutoRetry_malformed_fallback c10jp
      (by simp [c10jp])).2.1 "oops" (by simp) (by simp [c10jp, jsEmptyObj])⟩

-- ==================== doUpdate lemmas ====================

theorem doUpdate_noop (conv : String → String) (a b : Bool) (st : AgentState)
    (h1 : st.fullResponse = st.lastDisplayedText) (h2 : st.toolName = "") :
    doUpdate conv a b st = (st, []) := by
  by_cases hu : st.isUpdating <;> simp [doUpdate, hu, h1, h2]

theorem doUpdate_core_inv (conv : String → String) (a b : Bool) (st : AgentState) :
    (doUpdate conv a b st).1.streamMsgId = st.streamMsgId ∧
    (doUpdate conv a b st).1.chatId = st.chatId ∧
    (doUpdate conv a b st).1.isUpdating = st.isUpdating ∧
    (doUpdate conv a b st).1.updateTimer = st.updateTimer ∧
    (doUpdate conv a b st).1.typingTimer = st.typingTimer ∧
    (doUpdate conv a b st).1.subscribedMain = st.subscribedMain ∧
    (doUpdate conv a b st).1.subscribedTool = st.subscribedTool ∧
    (doUpdate conv a b st).1.toolName = st.toolName ∧
    (doUpdate conv a b st).1.fullResponse = st.fullResponse ∧
    (st.loadingTimer = false → (doUpdate conv a b st).1.loadingTimer = false) := by
  unfold doUpdate
  repeat' split <;> simp_all

theorem doUpdate_ok_le_one (conv : String → String) (a b : Bool) (st : AgentState) :
    ((doUpdate conv a b st).2.filter isOkEdit).length ≤ 1 := by
  unfold doUpdate
  repeat' split
  all_goals try simp [isOkEdit]
  all_goals (split <;> simp [isOkEdit])

theorem doUpdate_ok_imp_flushed (conv : String → String) (a b : Bool)
    (st : AgentState)
    (h : 0 < ((doUpdate conv a b st).2.filter isOkEdit).length) :
    (doUpdate conv a b st).1.lastDisplayedText =
      (doUpdate conv a b st).1.fullResponse := by
  revert h
  unfold doUpdate
  repeat' split
  all_goals try simp [isOkEdit]
  all_goals (split <;> simp [isOkEdit])

theorem doUpdate_flush (conv : String → String) (a b : Bool) (st : AgentState)
    (hu : st.isUpdating = false) (ha : a = true)
    (hid : st.streamMsgId.isSome = true) (hch : st.chatId.isSome = true) :
    (doUpdate conv a b st).1.lastDisplayedText =
      (doUpdate conv a b st).1.fullResponse := by
  subst ha
  rcases Option.isSome_iff_exists.mp hid with ⟨m, hm⟩
  rcases Option.isSome_iff_exists.mp hch with ⟨cc, hc⟩
  by_cases hg : st.fullResponse = st.lastDisplayedText ∧ st.toolName = ""
  · rw [doUpdate_noop conv true b st hg.1 hg.2]
    exact hg.1.symm
  · by_cases ht : jsTrim st.fullResponse = "" <;>
      simp [doUpdate, hu, hg, ht, hm, hc]

-- ==================== C6: doUpdate idempotence ====================

/-- C6 counterexample: in the state `c6State` — accumulated text equal to the
last displayed text but a tool active — two consecutive `doUpdate` calls with
no intervening content change issue two outbound edit calls, not at most
one. -/
theorem doUpdate_tool_active_two_edits :
    (((doUpdate id true true c6State).2 ++
       (doUpdate id true true (doUpdate id true true c6State).1).2).filter
         isEditAct).length = 2 ∧
    c6State.fullResponse = c6State.lastDisplayedText ∧
    ¬((((doUpdate id true true c6State).2 ++
       (doUpdate id true true (doUpdate id true true c6State).1).2).filter
         isEditAct).length ≤ 1) := by
  refine ⟨by decide, by decide, by decide⟩

theorem doUpdateV2_noop (conv : String → String) (a b : Bool) (st : AgentState)
    (h : st.fullResponse = st.lastDisplayedText) :
    doUpdateV2 conv a b st = (st, []) := by
  by_cases hu : st.isUpdating <;> simp [doUpdateV2, hu, h]

theorem doUpdateV2_cases (conv : String → String) (a b : Bool) (st : AgentState) :
    ((doUpdateV2 conv a b st).1.fullResponse =
      (doUpdateV2 conv a b st).1.lastDisplayedText) ∨
    (st.isUpdating = true ∧ (doUpdateV2 conv a b st).1 = st) := by
  by_cases hu : st.isUpdating
  · exact Or.inr ⟨hu, by simp [doUpdateV2, hu]⟩
  · by_cases hg : st.fullResponse = st.lastDisplayedText
    · left
      rw [doUpdateV2_noop conv a b st hg]
      exact hg
    · left
      unfold doUpdateV2
      repeat' split
      all_goals try simp_all
      all_goals (split <;> simp_all)

/-- C6 (amended): `doUpdate` (first variant) is a no-op — no outbound edit and
no state change — whenever the accumulated text equals the last successfully
displayed text and no tool is active.  Consequently two consecutive calls
with no intervening content change produce at most one successful outbound
edit when no tool is active (with a tool active each call re-edits the tool
status); the second variant issues at most one markdown edit attempt across
the two calls unconditionally. -/
theorem doUpdate_idempotence (conv : String → String) (a b c d : Bool)
    (st : AgentState) :
    (st.fullResponse = st.lastDisplayedText → st.toolName = "" →
      doUpdate conv a b st = (st, [])) ∧
    (st.toolName = "" →
      (((doUpdate conv a b st).2 ++
        (doUpdate conv c d (doUpdate conv a b st).1).2).filter isOkEdit).length ≤ 1) ∧
    ((((doUpdateV2 conv a b st).2 ++
        (doUpdateV2 conv c d (doUpdateV2 conv a b st).1).2).filter isMdEdit).length ≤ 1) := by
  refine ⟨fun h1 h2 => doUpdate_noop conv a b st h1 h2, ?_, ?_⟩
  · intro htool
    rw [List.filter_append, List.length_append]
    rcases Nat.eq_zero_or_pos
        ((doUpdate conv a b st).2.filter isOkEdit).length with h0 | hpos
    · have h2 := doUpdate_ok_le_one conv c d (doUpdate conv a b st).1
      omega
    · have hfl := doUpdate_ok_imp_flushed conv a b st hpos
      have htool2 : (doUpdate conv a b st).1.toolName = "" :=
        ((doUpdate_core_inv conv a b st).2.2.2.2.2.2.2.1).trans htool
      have hnoop := doUpdate_noop conv c d (doUpdate conv a b st).1 hfl.symm htool2
      have h1 := doUpdate_ok_le_one conv a b st
      rw [hnoop]
      simpa using h1
  · rw [List.filter_append, List.length_append]
    have hsecond : (doUpdateV2 conv c d (doUpdateV2 conv a b st).1).2 = [] := by
      rcases doUpdateV2_cases conv a b st with h | ⟨hu2, hres⟩
      · rw [doUpdateV2_noop conv c d _ h]
      · rw [hres]
        simp [doUpdateV2, hu2]
    have hfirst : ((doUpdateV2 conv a b st).2.filter isMdEdit).length ≤ 1 := by
      unfold doUpdateV2
      repeat' split
      all_goals try simp [isMdEdit]
      all_goals (split <;> simp [isMdEdit])
    rw [hsecond]
    simpa using hfirst

/-- Witness for `doUpdate_idempotence` at a fresh state with new content. -/
theorem doUpdate_idempotence_witness :
    (({ fullResponse := "x", streamMsgId := some 1, chatId := some 7 } :
        AgentState).toolName = "") ∧
    ((((doUpdate id true true
          ({ fullResponse := "x", streamMsgId := some 1, chatId := some 7 } :
            AgentState)).2 ++
        (doUpdate id true true
          (doUpdate id true true
            ({ fullResponse := "x", streamMsgId := some 1, chatId := some 7 } :
              AgentState)).1).2).filter isOkEdit).length ≤ 1) :=
  ⟨rfl, (doUpdate_idempotence id true true true true _).2.1 rfl⟩

-- ==================== C8: finalization ====================

theorem handleMain_core_inv (conv : String → String) (jp : String → Option Jv)
    (a b : Bool) (st : AgentState) (e : StreamEvent) :
    (handleMainEvent conv jp a b st e).1.streamMsgId = st.streamMsgId ∧
    (handleMainEvent conv jp a b st e).1.chatId = st.chatId ∧
    (handleMainEvent conv jp a b st e).1.isUpdating = st.isUpdating := by
  cases e
  case message_update ae =>
    cases ae
    case toolcall_start name =>
      have h := doUpdate_core_inv conv a b { st with toolName := jsOrStr name "tool" }
      simp only [handleMainEvent]
      exact ⟨h.1, h.2.1, h.2.2.1⟩
    all_goals simp [handleMainEvent]
  case message_end em =>
    by_cases h : optStrTruthy em <;> simp [handleMainEvent, h]
  all_goals simp [handleMainEvent]

theorem handleTool_core_inv (conv : String → String) (a b : Bool)
    (st : AgentState) (e : StreamEvent) :
    (handleToolEvent conv a b st e).1.streamMsgId = st.streamMsgId ∧
    (handleToolEvent conv a b st e).1.chatId = st.chatId ∧
    (handleToolEvent conv a b st e).1.isUpdating = st.isUpdating := by
  cases e
  case tool_execution_end =>
    have h := doUpdate_core_inv conv a b { st with toolName := "" }
    simp only [handleToolEvent]
    exact ⟨h.1, h.2.1, h.2.2.1⟩
  all_goals simp [handleToolEvent]

theorem loadingAnimation_core_inv (ok : Bool) (st : AgentState) :
    (loadingAnimation ok st).1.streamMsgId = st.streamMsgId ∧
    (loadingAnimation ok st).1.chatId = st.chatId ∧
    (loadingAnimation ok st).1.isUpdating = st.isUpdating := by
  rcases hm : st.streamMsgId with _ | m
  · simp [loadingAnimation, hm]
  · by_cases h1 : jsTrim st.fullResponse = "" <;> by_cases h2 : st.toolName = "" <;>
      simp [loadingAnimation, hm, h1, h2]

theorem stepItem_core_inv (conv : String → String) (jp : String → Option Jv)
    (st : AgentState) (it : StreamItem) :
    (stepItem conv jp st it).1.streamMsgId = st.streamMsgId ∧
    (stepItem conv jp st it).1.chatId = st.chatId ∧
    (stepItem conv jp st it).1.isUpdating = st.isUpdating := by
  cases it
  case ev a b e =>
    obtain ⟨h1, h2, h3⟩ := handleMain_core_inv conv jp a b st e
    obtain ⟨h4, h5, h6⟩ :=
      handleTool_core_inv conv a b (handleMainEvent conv jp a b st e).1 e
    obtain ⟨h7, h8, h9⟩ := handleTool_core_inv conv a b st e
    simp only [stepItem]
    by_cases hm : st.subscribedMain
    · rw [if_pos hm]
      by_cases ht : (handleMainEvent conv jp a b st e).1.subscribedTool
      · rw [if_pos ht]
        exact ⟨h4.trans h1, h5.trans h2, h6.trans h3⟩
      · rw [if_neg ht]
        exact ⟨h1, h2, h3⟩
    · rw [if_neg hm]
      by_cases ht2 : st.subscribedTool
      · rw [if_pos ht2]
        exact ⟨h7, h8, h9⟩
      · rw [if_neg ht2]
        exact ⟨rfl, rfl, rfl⟩
  case updateTick a b =>
    obtain ⟨h1, h2, h3⟩ := doUpdate_core_inv conv a b st
    by_cases h : st.updateTimer <;> simp_all [stepItem]
  case loadTick ok =>
    obtain ⟨h1, h2, h3⟩ := loadingAnimation_core_inv ok st
    by_cases h : st.loadingTimer <;> simp_all [stepItem]
  case typeTick =>
    by_cases h : st.typingTimer <;> simp [stepItem, h]

theorem runItems_core_inv (conv : String → String) (jp : String → Option Jv)
    (items : List StreamItem) (st : AgentState) :
    (runItems conv jp st items).1.streamMsgId = st.streamMsgId ∧
    (runItems conv jp st items).1.chatId = st.chatId ∧
    (runItems conv jp st items).1.isUpdating = st.isUpdating := by
  induction items generalizing st with
  | nil => simp [runItems]
  | cons it rest ih =>
      obtain ⟨h1, h2, h3⟩ := stepItem_core_inv conv jp st it
      obtain ⟨h4, h5, h6⟩ := ih (stepItem conv jp st it).1
      exact ⟨h4.trans h1, h5.trans h2, h6.trans h3⟩

theorem finalizeRun_clears (conv : String → String) (o : NetOracle)
    (st : AgentState) :
    (finalizeRun conv o st).1.updateTimer = false ∧
    (finalizeRun conv o st).1.typingTimer = false ∧
    (finalizeRun conv o st).1.loadingTimer = false ∧
    (finalizeRun conv o st).1.subscribedMain = false ∧
    (finalizeRun conv o st).1.subscribedTool = false ∧
    (finalizeRun conv o st).1.streamMsgId = st.streamMsgId ∧
    (finalizeRun conv o st).1.chatId = st.chatId ∧
    (finalizeRun conv o st).1.isUpdating = st.isUpdating := by
  unfold finalizeRun
  obtain ⟨h1, h2, h3, h4, h5, h6, h7, h8, h9, h10⟩ :=
    doUpdate_core_inv conv o.finalMd o.finalPlain
      { st with updateTimer := false, typingTimer := false, loadingTimer := false,
                subscribedMain := false, subscribedTool := false }
  exact ⟨by simpa using h4, by simpa using h5, by simpa using h10 rfl,
    by simpa using h6, by simpa using h7, by simpa using h1,
    by simpa using h2, by simpa using h3⟩

theorem runAgentModel_state (conv : String → String) (jp : String → Option Jv)
    (o : NetOracle) (chatId : Option Nat) (pt : Bool) (items : List StreamItem) :
    (runAgentModel conv jp o chatId pt items).1 =
      (finalizeRun conv o (runItems conv jp (initAgentState o chatId) items).1).1 := by
  unfold runAgentModel
  cases pt <;> simp

/-- C8: on every exit of `runAgent` — `session.prompt` returning or throwing,
over any event stream — the final state has the throttled update timer, the
typing timer and the loading-animation timer stopped and both event-stream
subscriptions released; any further timer tick or delivered event is inert
(no state change, no side effect); and the finalization performs the one
final flush: when the placeholder and chat exist and the final edit succeeds,
the displayed text equals the full accumulated content regardless of
throttle timing. -/
theorem runAgent_finalizes (conv : String → String) (jp : String → Option Jv)
    (o : NetOracle) (chatId : Option Nat) (promptThrows : Bool)
    (items : List StreamItem) :
    ((runAgentModel conv jp o chatId promptThrows items).1.updateTimer = false ∧
     (runAgentModel conv jp o chatId promptThrows items).1.typingTimer = false ∧
     (runAgentModel conv jp o chatId promptThrows items).1.loadingTimer = false ∧
     (runAgentModel conv jp o chatId promptThrows items).1.subscribedMain = false ∧
     (runAgentModel conv jp o chatId promptThrows items).1.subscribedTool = false) ∧
    (∀ it : StreamItem,
      stepItem conv jp (runAgentModel conv jp o chatId promptThrows items).1 it =
        ((runAgentModel conv jp o chatId promptThrows items).1, [])) ∧
    (o.replyMsgId.isSome = true → chatId.isSome = true → o.finalMd = true →
      (runAgentModel conv jp o chatId promptThrows items).1.lastDisplayedText =
        (runAgentModel conv jp o chatId promptThrows items).1.fullResponse) := by
  rw [runAgentModel_state conv jp o chatId promptThrows items]
  obtain ⟨f1, f2, f3, f4, f5, f6, f7, f8⟩ :=
    finalizeRun_clears conv o (runItems conv jp (initAgentState o chatId) items).1
  obtain ⟨p1, p2, p3⟩ :=
    runItems_core_inv conv jp items (initAgentState o chatId)
  refine ⟨⟨f1, f2, f3, f4, f5⟩, ?_, ?_⟩
  · intro it
    cases it
    case ev a b e => simp [stepItem, f4, f5]
    case updateTick a b => simp [stepItem, f1]
    case loadTick ok => simp [stepItem, f3]
    case typeTick => simp [stepItem, f2]
  · intro h1 h2 h3
    unfold finalizeRun
    apply doUpdate_flush
    · simpa [initAgentState] using p3
    · exact h3
    · have hmsg : (runItems conv jp (initAgentState o chatId) items).1.streamMsgId =
          o.replyMsgId := by simpa [initAgentState] using p1
      simp [hmsg, h1]
    · have hch : (runItems conv jp (initAgentState o chatId) items).1.chatId =
          chatId := by simpa [initAgentState] using p2
      simp [hch, h2]

/-- Witness for `runAgent_finalizes`: a throwing prompt with an empty stream,
the placeholder created and every channel call succeeding. -/
theorem runAgent_finalizes_witness :
    ((runAgentModel id (fun _ => none) ⟨some 1, true, true, true, true, true⟩
        (some 7) true []).1.updateTimer = false ∧
     (runAgentModel id (fun _ => none) ⟨some 1, true, true, true, true, true⟩
        (some 7) true []).1.typingTimer = false ∧
     (runAgentModel id (fun _ => none) ⟨some 1, true, true, true, true, true⟩
        (some 7) true []).1.loadingTimer = false ∧
     (runAgentModel id (fun _ => none) ⟨some 1, true, true, true, true, true⟩
        (some 7) true []).1.subscribedMain = false ∧
     (runAgentModel id (fun _ => none) ⟨some 1, true, true, true, true, true⟩
        (some 7) true []).1.subscribedTool = false) ∧
    ((runAgentModel id (fun _ => none) ⟨some 1, true, true, true, true, true⟩
        (some 7) true []).1.lastDisplayedText =
      (runAgentModel id (fun _ => none) ⟨some 1, true, true, true, true, true⟩
        (some 7) true []).1.fullResponse) :=
  ⟨(runAgent_finalizes id (fun _ => none) ⟨some 1, true, true, true, true, true⟩
      (some 7) true []).1,
   (runAgent_finalizes id (fun _ => none) ⟨some 1, true, true, true, true, true⟩
      (some 7) true []).2.2 rfl rfl rfl⟩

-- ==================== C4: terminal error vs partial content ====================

/-- C4: when `runAgent`'s terminal logic runs with a recorded error and blank
accumulated content, it deletes the placeholder (when one exists) and raises
an error carrying the classified status and message; when non-blank content
exists it never raises — the result is `ok` with a response derived from the
accumulated content (converted or plain), never discarded. -/
theorem finishRunAgent_error_vs_partial_content (conv : String → String) (o : NetOracle)
    (st : AgentState) (e : ClassifiedError) :
    (st.lastError = some e → jsTrim st.fullResponse = "" →
      ((finishRunAgent conv o st).1 =
          .raised e.status (jsOrStr e.message "AI 请求失败") ∧
        (st.streamMsgId.isSome = true → st.chatId.isSome = true →
          ChanAct.delMsg ∈ (finishRunAgent conv o st).2))) ∧
    (jsTrim st.fullResponse ≠ "" →
      ∃ resp mid, (finishRunAgent conv o st).1 = .ok resp mid ∧
        (resp = conv st.fullResponse ∨ resp = st.fullResponse)) := by
  constructor
  · intro he ht
    constructor
    · simp [finishRunAgent, he, ht]
    · intro h1 h2
      rcases Option.isSome_iff_exists.mp h1 with ⟨m, hm⟩
      rcases Option.isSome_iff_exists.mp h2 with ⟨cc, hc⟩
      simp [finishRunAgent, he, ht, hm, hc]
  · intro ht
    have hg : ¬(st.lastError.isSome ∧ jsTrim st.fullResponse = "") := by
      intro h
      exact ht h.2
    unfold finishRunAgent
    rw [if_neg hg]
    rcases hmid : st.streamMsgId with _ | m
    · exact ⟨conv st.fullResponse, st.streamMsgId, by simp [hmid], Or.inl rfl⟩
    · rcases hcid : st.chatId with _ | cc
      · exact ⟨conv st.fullResponse, st.streamMsgId, by simp [hmid, hcid], Or.inl rfl⟩
      · by_cases hlen : TG_MAX_LEN < st.fullResponse.length
        · by_cases hd : o.postDelete
          · exact ⟨conv st.fullResponse, none, by simp [ht, hlen, hd], Or.inl rfl⟩
          · by_cases hp : o.postPlain
            · exact ⟨st.fullResponse, some m, by simp [ht, hlen, hd, hp], Or.inr rfl⟩
            · exact ⟨conv st.fullResponse, some m,
                by simp [ht, hlen, hd, hp], Or.inl rfl⟩
        · by_cases hmd2 : o.postMd
          · exact ⟨conv st.fullResponse, some m,
              by simp [ht, hlen, hmd2], Or.inl rfl⟩
          · by_cases hp : o.postPlain
            · exact ⟨st.fullResponse, some m,
                by simp [ht, hlen, hmd2, hp], Or.inr rfl⟩
            · exact ⟨conv st.fullResponse, some m,
                by simp [ht, hlen, hmd2, hp], Or.inl rfl⟩

/-- Witness for `finishRunAgent_error_vs_partial_content`: a rate-limit error with no
content, and a partial response with a working markdown edit. -/
theorem finishRunAgent_error_vs_partial_content_witness :
    (((finishRunAgent id ⟨some 1, true, true, true, true, true⟩
          ({ lastError := some ⟨429, some rateLimitedText⟩, streamMsgId := some 1,
             chatId := some 7 } : AgentState)).1 =
        .raised 429 (jsOrStr (some rateLimitedText) "AI 请求失败") ∧
      ChanAct.delMsg ∈ (finishRunAgent id ⟨some 1, true, true, true, true, true⟩
          ({ lastError := some ⟨429, some rateLimitedText⟩, streamMsgId := some 1,
             chatId := some 7 } : AgentState)).2) ∧
    (∃ resp mid,
      (finishRunAgent id ⟨some 1, true, true, true, true, true⟩
          ({ fullResponse := "partial" } : AgentState)).1 = .ok resp mid ∧
        (resp = id ({ fullResponse := "partial" } : AgentState).fullResponse ∨
         resp = ({ fullResponse := "partial" } : AgentState).fullResponse))) := by
  constructor
  · have h := (finishRunAgent_error_vs_partial_content id
      ⟨some 1, true, true, true, true, true⟩
      ({ lastError := some ⟨429, some rateLimitedText⟩, streamMsgId := some 1,
         chatId := some 7 } : AgentState) ⟨429, some rateLimitedText⟩).1 rfl (by decide)
    exact ⟨h.1, h.2 rfl rfl⟩
  · exact (finishRunAgent_error_vs_partial_content id
      ⟨some 1, true, true, true, true, true⟩
      ({ fullResponse := "partial" } : AgentState) ⟨0, none⟩).2 (by decide)

-- ==================== C9: the two-delta scenario ====================

/-- C9 counterexample: on the stream `text_delta("Hi")`, `text_delta(" there")`,
`message_end` with the throttle longer than the whole sequence, the code
issues three edit calls against the outbound message — the finalization
flush (`"Hi there ▌"`), `runAgent`'s final edit (`"Hi there"`), and the
caller's completion edit — not exactly one. -/
theorem c9_three_edits_not_one :
    c9Edits.length = 3 ∧ c9Edits.length ≠ 1 := by
  refine ⟨by decide, by decide⟩

/-- C9 (amended): the scenario issues exactly three edit calls: the final
flush carrying `"Hi there ▌"`, `runAgent`'s final edit carrying `"Hi there"`,
and one completion edit carrying `"Hi there"` plus the elapsed-time suffix
with the completion keyboard attached; only the last carries the completion
decoration, and `runAgent` returns the final text `"Hi there"`. -/
theorem c9_edit_log :
    c9Edits =
      [.edit true "Hi there ▌" false true,
       .edit true "Hi there" false true,
       .edit true "Hi there\n\n⏱ 0.1秒" true true] ∧
    c9Run.2.1 = .ok "Hi there" (some 1) := by
  refine ⟨by decide, by decide⟩

-- ==================== C3: per-key exclusivity ====================

/-- C3: at most one task per conversation key.  While a key is in flight a
second non-blank message for it is rejected with the busy notice carrying the
cancel button and starts no agent invocation; an accepted task clears the
timeout and removes the running flag on success, error and cancellation
alike; and two immediate acquisition checks for one key never both succeed
before a release. -/
theorem processUserMessage_exclusive (running : List String) (k userText u2 : String)
    (o o2 : TaskOutcome) (hu : jsTrim userText ≠ "") :
    (running.contains k = true →
      processUserMessage running k userText o =
        ⟨false, true, false, running, false, none⟩) ∧
    (running.contains k = false →
      (processUserMessage running k userText o).accepted = true ∧
      (processUserMessage running k userText o).agentInvoked = true ∧
      (processUserMessage running k userText o).timerCleared = true ∧
      (processUserMessage running k userText o).running = running ∧
      (processUserMessage running k userText o).running.contains k = false) ∧
    (running.contains k = false →
      (tryAcquire running k).1 = true ∧
      (tryAcquire (tryAcquire running k).2 k).1 = false) ∧
    (jsTrim u2 ≠ "" →
      (processUserMessage (k :: running) k u2 o2).accepted = false ∧
      (processUserMessage (k :: running) k u2 o2).busyNoticeWithCancel = true ∧
      (processUserMessage (k :: running) k u2 o2).agentInvoked = false) := by
  refine ⟨?_, ?_, ?_, ?_⟩
  · intro h
    have hm : k ∈ running := mem_of_strContains h
    simp [processUserMessage, hu, tryAcquire, hm]
  · intro h
    have hm : k ∉ running := by
      intro hmem
      rw [strContains_of_mem hmem] at h
      cases h
    simp [processUserMessage, hu, tryAcquire, hm, List.erase_cons_head]
  · intro h
    have hm : k ∉ running := by
      intro hmem
      rw [strContains_of_mem hmem] at h
      cases h
    simp [tryAcquire, hm]
  · intro h2
    simp [processUserMessage, h2, tryAcquire]

/-- Witness for `processUserMessage_exclusive`: a free key is acquired, an
immediate second check fails, and a message arriving while the key runs is
rejected without invoking the agent. -/
theorem processUserMessage_exclusive_witness :
    (jsTrim "hi" ≠ "") ∧
    ((tryAcquire [] "1_2").1 = true ∧
      (tryAcquire (tryAcquire [] "1_2").2 "1_2").1 = false) ∧
    ((processUserMessage ["1_2"] "1_2" "yo" .succeeded).accepted = false ∧
     (processUserMessage ["1_2"] "1_2" "yo" .succeeded).busyNoticeWithCancel = true ∧
     (processUserMessage ["1_2"] "1_2" "yo" .succeeded).agentInvoked = false) :=
  ⟨by decide,
   (processUserMessage_exclusive [] "1_2" "hi" "yo" .succeeded .succeeded
     (by decide)).2.2.1 (by decide),
   (processUserMessage_exclusive [] "1_2" "hi" "yo" .succeeded .succeeded
     (by decide)).2.2.2 (by decide)⟩

end Botk
